import Mathlib

/-!
Shallow embedding of the ExpenseTracker single-page application
(src/app/page.tsx and the extended variant in src/unnamed/part_000).

The component state consists of the expense collection, the current
filter selection, and the add-form data.  JavaScript numbers are
modelled by JsNum: either NaN or an exact rational value; arithmetic on
NaN propagates NaN, as in JavaScript.  Handlers are pure functions from
state (plus the external inputs they read: the current clock reading
used for id generation, the current date used for form defaults, and
the answer of a confirmation dialog) to a new state together with the
alert message raised, if any.
-/

namespace ExpenseTracker

/-- JavaScript number: NaN or an exact value.  Rationals stand in for
IEEE doubles; all amounts appearing in the program are small decimals. -/
inductive JsNum where
  | nan : JsNum
  | val : Rat → JsNum
deriving Repr, DecidableEq

/-- JavaScript addition: NaN propagates through sums. -/
def JsNum.add : JsNum → JsNum → JsNum
  | .val a, .val b => .val (a + b)
  | _, _ => .nan

/-- A JavaScript number is non-negative when it is an actual value at
least zero; NaN is not non-negative. -/
def JsNum.nonneg : JsNum → Prop
  | .nan => False
  | .val q => 0 ≤ q

instance : DecidablePred JsNum.nonneg := fun n =>
  match n with
  | .nan => isFalse (fun h => h)
  | .val q => inferInstanceAs (Decidable (0 ≤ q))

/-- Expense record (the Expense interface of page.tsx). -/
structure Expense where
  id : String
  date : String
  category : String
  amount : JsNum
  description : String
deriving Repr, DecidableEq

/-- The add-form state (formData in page.tsx): all four fields are the
raw typed text. -/
structure FormData where
  date : String
  category : String
  amount : String
  description : String
deriving Repr, DecidableEq

/-- The fixed category list of the component. -/
def categories : List String :=
  ["Food", "Transport", "Entertainment", "Utilities", "Health", "Shopping", "Other"]

/-- Default form data: today's date, category Food, empty amount and
description.  The current date is an external input. -/
def defaultFormData (today : String) : FormData :=
  { date := today, category := "Food", amount := "", description := "" }

/-- The component state: the expense collection (newest first), the
filter selection, and the form data. -/
structure TrackerState where
  expenses : List Expense
  filterCategory : String
  formData : FormData
deriving Repr, DecidableEq

/-- The state at session start: empty collection, filter All, default
form. -/
def initialState (today : String) : TrackerState :=
  { expenses := [], filterCategory := "All", formData := defaultFormData today }

/-- Result of a handler: the state after the handler ran, and the alert
message raised during it, if any. -/
structure OpResult where
  state : TrackerState
  alert : Option String
deriving Repr, DecidableEq

/-! Model of the JavaScript parseFloat builtin, restricted to the
numeral shapes the amount field can carry: an optional sign followed by
decimal digits with an optional fractional part.  Exponents, leading
whitespace and Infinity are not modelled; a string that does not start
with a numeral parses to NaN, as in JavaScript. -/

/-- Consume leading decimal digits, returning the accumulated value and
the rest of the characters. -/
def parseNatDigits (acc : Nat) : List Char → Nat × List Char
  | [] => (acc, [])
  | c :: cs =>
    if c.isDigit then parseNatDigits (acc * 10 + (c.toNat - 48)) cs
    else (acc, c :: cs)

/-- Parse the unsigned numeral at the head of the characters:
digits with an optional dot-separated fractional part, or a fractional
part alone.  Returns none when no digit is found. -/
def parseUnsigned (cs : List Char) : Option Rat :=
  match cs with
  | '.' :: cs1 =>
    let frac := cs1.takeWhile Char.isDigit
    if frac.isEmpty then none
    else some ((parseNatDigits 0 frac).1 / (10 : Rat) ^ frac.length)
  | c :: _ =>
    if c.isDigit then
      let (ip, rest) := parseNatDigits 0 cs
      match rest with
      | '.' :: cs2 =>
        let frac := cs2.takeWhile Char.isDigit
        some ((ip : Rat) + (parseNatDigits 0 frac).1 / (10 : Rat) ^ frac.length)
      | _ => some (ip : Rat)
    else none
  | [] => none

/-- Model of parseFloat: strip an optional sign, parse the numeral,
NaN when nothing parses. -/
def parseFloat (s : String) : JsNum :=
  let core := fun (neg : Bool) (cs : List Char) =>
    match parseUnsigned cs with
    | some q => JsNum.val (if neg then -q else q)
    | none => JsNum.nan
  match s.toList with
  | '-' :: cs => core true cs
  | '+' :: cs => core false cs
  | cs => core false cs

/-! The event handlers of the component, as pure state transformers. -/

/-- Expense built by handleAddExpense from the form data and the
current clock reading (Date.now().toString() is the id). -/
def mkExpense (now : Nat) (fd : FormData) : Expense :=
  { id := toString now
    date := fd.date
    category := fd.category
    amount := parseFloat fd.amount
    description := fd.description }

/-- handleAddExpense: reject with an alert when the date, category or
amount text is empty; otherwise prepend the new expense and reset the
form to its defaults. -/
def handleAddExpense (s : TrackerState) (now : Nat) (today : String) : OpResult :=
  if s.formData.date = "" ∨ s.formData.category = "" ∨ s.formData.amount = "" then
    { state := s, alert := some "Please fill in all required fields" }
  else
    { state :=
        { s with
          expenses := mkExpense now s.formData :: s.expenses
          formData := defaultFormData today }
      alert := none }

/-- handleDeleteExpense: keep exactly the expenses whose id differs
from the argument. -/
def handleDeleteExpense (s : TrackerState) (id : String) : TrackerState :=
  { s with expenses := s.expenses.filter (fun e => e.id != id) }

/-- handleDeleteAll: after an affirmative confirmation the collection
becomes empty; a declined confirmation changes nothing. -/
def handleDeleteAll (s : TrackerState) (confirmed : Bool) : OpResult :=
  if confirmed then
    { state := { s with expenses := [] }, alert := none }
  else
    { state := s, alert := none }

/-- handleDeleteByCategory: rejected with an alert when the filter is
All; alerted and unchanged when no expense matches the selected
category; otherwise, after an affirmative confirmation, every expense
of the selected category is removed. -/
def handleDeleteByCategory (s : TrackerState) (confirmed : Bool) : OpResult :=
  if s.filterCategory = "All" then
    { state := s, alert := some "Please select a specific category to delete" }
  else
    let count := (s.expenses.filter (fun e => e.category == s.filterCategory)).length
    if count = 0 then
      { state := s, alert := some ("No expenses found in category: " ++ s.filterCategory) }
    else if confirmed then
      { state := { s with expenses := s.expenses.filter (fun e => e.category != s.filterCategory) }
        alert := none }
    else
      { state := s, alert := none }

/-- filteredExpenses: the whole collection when the filter is All, the
matching subsequence otherwise. -/
def filteredExpenses (s : TrackerState) : List Expense :=
  if s.filterCategory = "All" then s.expenses
  else s.expenses.filter (fun e => e.category == s.filterCategory)

/-- Sum of the amounts of a list of expenses, folded left from zero as
the reduce call does. -/
def sumAmounts (l : List Expense) : JsNum :=
  l.foldl (fun sum e => sum.add e.amount) (JsNum.val 0)

/-- totalAmount: the sum of the amounts of the filtered view. -/
def totalAmount (s : TrackerState) : JsNum :=
  sumAmounts (filteredExpenses s)

/-! Session traces.  A user session is a list of discrete events; each
runs one handler to completion (single-threaded, no overlap).  The
external inputs a handler reads (clock reading, current date,
confirmation answer) travel with the event. -/

/-- A form field, as addressed by the name attribute handleInputChange
switches on. -/
inductive FormField where
  | date | category | amount | description
deriving Repr, DecidableEq

/-- handleInputChange: overwrite one named field of the form data. -/
def setField (fd : FormData) : FormField → String → FormData
  | .date, v => { fd with date := v }
  | .category, v => { fd with category := v }
  | .amount, v => { fd with amount := v }
  | .description, v => { fd with description := v }

/-- One user event of a session. -/
inductive Op where
  | input (f : FormField) (v : String)
  | setFilter (c : String)
  | add (now : Nat) (today : String)
  | remove (id : String)
  | removeAll (confirmed : Bool)
  | removeByCategory (confirmed : Bool)
deriving Repr, DecidableEq

/-- Dispatch one event to its handler. -/
def step (s : TrackerState) : Op → TrackerState
  | .input f v => { s with formData := setField s.formData f v }
  | .setFilter c => { s with filterCategory := c }
  | .add now today => (handleAddExpense s now today).state
  | .remove id => handleDeleteExpense s id
  | .removeAll c => (handleDeleteAll s c).state
  | .removeByCategory c => (handleDeleteByCategory s c).state

/-- Run a list of events in order. -/
def run (s : TrackerState) : List Op → TrackerState
  | [] => s
  | op :: ops => run (step s op) ops

/-- The clock readings of the add events of a session, in order. -/
def addTimes : List Op → List Nat
  | [] => []
  | .add n _ :: ops => n :: addTimes ops
  | _ :: ops => addTimes ops

/-- The ids of a list of expenses, in order. -/
def ids (l : List Expense) : List String :=
  l.map (fun e => e.id)

/-! Persistence.  The save effect writes JSON.stringify(expenses) under
the key "expenses"; the load effect reads the blob back through
JSON.parse and installs whatever it yields, with no schema check: the
catch branch fires only when the text is not well-formed JSON, which a
blob written by JSON.stringify never is.  The save effect only ever
writes an array of flat records with scalar fields (strings, numbers,
and null where an amount was NaN), so the blob and the parsed value are
modelled at exactly that shape.  JSON.stringify maps NaN to null, as in
JavaScript; JSON.parse keeps null as null, nothing turns it back into
NaN. -/

/-- Scalar value of one field of a serialised expense record: the save
effect only ever writes strings, numbers, and null (for a NaN
amount). -/
inductive JsonScalar where
  | null : JsonScalar
  | num : Rat → JsonScalar
  | str : String → JsonScalar
deriving Repr, DecidableEq

/-- In-memory JavaScript scalar value, as held by one field of a
record of the component state: unlike the serialised form it can carry
NaN. -/
inductive JsScalar where
  | null : JsScalar
  | nan : JsScalar
  | num : Rat → JsScalar
  | str : String → JsScalar
deriving Repr, DecidableEq

/-- JSON.stringify on a number: NaN serialises as null. -/
def encodeJsNum : JsNum → JsonScalar
  | .nan => JsonScalar.null
  | .val q => JsonScalar.num q

/-- JSON.stringify on one expense record: the field list of the
serialised object, in source order. -/
def encodeExpense (e : Expense) : List (String × JsonScalar) :=
  [("id", JsonScalar.str e.id),
   ("date", JsonScalar.str e.date),
   ("category", JsonScalar.str e.category),
   ("amount", encodeJsNum e.amount),
   ("description", JsonScalar.str e.description)]

/-- JSON.stringify on the whole collection: the serialised array of
records. -/
def encodeExpenses (l : List Expense) : List (List (String × JsonScalar)) :=
  l.map encodeExpense

/-- JSON.parse on one scalar of the stored blob: it always succeeds,
and a stored null stays null. -/
def parseScalar : JsonScalar → JsScalar
  | JsonScalar.null => JsScalar.null
  | JsonScalar.num q => JsScalar.num q
  | JsonScalar.str s => JsScalar.str s

/-- JSON.parse on the stored blob: the array of records that
setExpenses installs, field for field, with no validation of any
kind. -/
def parseStored (blob : List (List (String × JsonScalar))) : List (List (String × JsScalar)) :=
  blob.map (fun record => record.map (fun f => (f.1, parseScalar f.2)))

/-- The in-memory collection as the JavaScript value it is before
persisting: a NaN amount is the NaN value, not null. -/
def jsValueOfJsNum : JsNum → JsScalar
  | .nan => JsScalar.nan
  | .val q => JsScalar.num q

/-- One expense of the component state as the JavaScript record value
it is. -/
def jsValueOfExpense (e : Expense) : List (String × JsScalar) :=
  [("id", JsScalar.str e.id),
   ("date", JsScalar.str e.date),
   ("category", JsScalar.str e.category),
   ("amount", jsValueOfJsNum e.amount),
   ("description", JsScalar.str e.description)]

/-- The collection of the component state as the JavaScript array value
it is. -/
def jsValueOfExpenses (l : List Expense) : List (List (String × JsScalar)) :=
  l.map jsValueOfExpense

/-! Report generation (downloadPDF).  The document-rendering
collaborator is external; the report is modelled by the data handed to
it: the text lines, the table contents and start position, the total
line position derived from the final table extent the collaborator
reports, and the download file name. -/

/-- JavaScript toFixed(2) on the amounts that occur here: the value
rounded to hundredths (half away from zero), printed with two decimals;
NaN prints as NaN. -/
def toFixed2 : JsNum → String
  | .nan => "NaN"
  | .val q =>
    let cents : Int := if 0 ≤ q then ⌊q * 100 + 1 / 2⌋ else -⌊-q * 100 + 1 / 2⌋
    let sign := if cents < 0 then "-" else ""
    let n := cents.natAbs
    let fracDigits := Nat.toDigits 10 (n % 100)
    let frac := if n % 100 < 10 then "0" ++ String.mk fracDigits else String.mk fracDigits
    sign ++ toString (n / 100) ++ "." ++ frac

/-- The document content downloadPDF hands to the rendering
collaborator. -/
structure Report where
  title : String
  generatedLine : String
  categoryLine : Option String
  tableHead : List String
  tableBody : List (List String)
  startY : Nat
  totalY : Nat
  totalLine : String
  footer : String
  filename : String
deriving Repr, DecidableEq

/-- Outcome of downloadPDF: either the alert on an empty view, or the
document delivered for download. -/
inductive PdfResult where
  | rejected (msg : String)
  | produced (r : Report)
deriving Repr, DecidableEq

/-- downloadPDF: reject with an alert when the filtered view is empty;
otherwise build the report document.  reportDate is the locale-formatted
current date, todayISO the ISO current date used in the file name, and
tableFinalY the final vertical extent of the table as reported by the
rendering collaborator. -/
def downloadPDF (s : TrackerState) (reportDate todayISO : String)
    (tableFinalY : Nat) : PdfResult :=
  if (filteredExpenses s).length = 0 then
    PdfResult.rejected "No expenses to download"
  else
    PdfResult.produced
      { title := "Expense Tracker Report"
        generatedLine := "Report Generated: " ++ reportDate
        categoryLine :=
          if s.filterCategory ≠ "All" then some ("Category: " ++ s.filterCategory) else none
        tableHead := ["Date", "Category", "Amount (INR)", "Description"]
        tableBody :=
          (filteredExpenses s).map (fun e =>
            [e.date, e.category, toFixed2 e.amount,
             if e.description = "" then "-" else e.description])
        startY := if s.filterCategory ≠ "All" then 42 else 36
        totalY := tableFinalY + 10
        totalLine := "Total Amount: INR " ++ toFixed2 (totalAmount s)
        footer := "This is an automatically generated report from Expense Tracker"
        filename := "expense-report-" ++ todayISO ++ ".pdf" }

/-! The data-model invariant of the specification. -/

/-- A persisted expense as the specification describes it: non-empty
date, category from the fixed set, non-negative numeric amount. -/
def validExpense (e : Expense) : Prop :=
  e.date ≠ "" ∧ e.category ∈ categories ∧ JsNum.nonneg e.amount

instance : DecidablePred validExpense := fun e =>
  inferInstanceAs (Decidable (e.date ≠ "" ∧ e.category ∈ categories ∧ JsNum.nonneg e.amount))

/-- The invariant over the whole collection. -/
def collectionInvariant (l : List Expense) : Prop :=
  ∀ e ∈ l, validExpense e

instance : DecidablePred collectionInvariant := fun l =>
  inferInstanceAs (Decidable (∀ e ∈ l, validExpense e))

/-! Concrete fixtures used by counterexamples below. -/

/-- A form input whose amount text is a negative numeral: the
validation of handleAddExpense only checks that the three texts are
non-empty, so this input is accepted. -/
def negAmountState : TrackerState :=
  { expenses := []
    filterCategory := "All"
    formData := { date := "2024-01-01", category := "Food", amount := "-5", description := "" } }

/-- A session in which the user performs two valid adds while the clock
reads 5 both times: Date.now() has millisecond resolution and nothing
in handleAddExpense guards against two calls in the same millisecond. -/
def collidingOps : List Op :=
  [Op.input FormField.amount "10", Op.add 5 "2024-01-01",
   Op.input FormField.amount "20", Op.add 5 "2024-01-01"]

/-- An expense whose amount is NaN, as parseFloat yields on a
non-numeric amount text. -/
def nanExpense : Expense :=
  { id := "9", date := "2024-01-01", category := "Other",
    amount := JsNum.nan, description := "x" }

/-! Theorems about the embedded program. -/

/-- C1: for every add input whose date, category and amount texts are
all non-empty, handleAddExpense raises no alert, prepends the newly
constructed expense (given date, category, parsed amount, description)
to the collection, leaves the previous entries in order behind it,
keeps the filter, resets the form to its defaults, and the collection
grows by exactly one. -/
theorem add_valid_prepends_and_resets (s : TrackerState) (now : Nat) (today : String)
    (hd : s.formData.date ≠ "") (hc : s.formData.category ≠ "") (ha : s.formData.amount ≠ "") :
    handleAddExpense s now today =
      { state :=
          { expenses := mkExpense now s.formData :: s.expenses
            filterCategory := s.filterCategory
            formData := defaultFormData today }
        alert := none } ∧
    (handleAddExpense s now today).state.expenses.length = s.expenses.length + 1 := by
  have h : ¬ (s.formData.date = "" ∨ s.formData.category = "" ∨ s.formData.amount = "") := by
    push_neg
    exact ⟨hd, hc, ha⟩
  constructor
  · rw [handleAddExpense, if_neg h]
  · rw [handleAddExpense, if_neg h]
    simp

/-- Witness for C1 at a concrete valid form on the empty collection. -/
theorem add_valid_prepends_and_resets_witness :
    handleAddExpense ⟨[], "All", ⟨"2024-01-05", "Food", "250", ""⟩⟩ 7 "2024-02-01" =
      { state :=
          { expenses := mkExpense 7 ⟨"2024-01-05", "Food", "250", ""⟩ :: []
            filterCategory := "All"
            formData := defaultFormData "2024-02-01" }
        alert := none } ∧
    (handleAddExpense ⟨[], "All", ⟨"2024-01-05", "Food", "250", ""⟩⟩ 7 "2024-02-01").state.expenses.length =
      ([] : List Expense).length + 1 :=
  add_valid_prepends_and_resets ⟨[], "All", ⟨"2024-01-05", "Food", "250", ""⟩⟩ 7 "2024-02-01"
    (by decide) (by decide) (by decide)

/-- C2: for every add input in which the date, category or amount text
is empty, handleAddExpense raises the blocking alert and returns the
state exactly unchanged, so neither the collection nor the persisted
copy moves. -/
theorem add_invalid_rejected (s : TrackerState) (now : Nat) (today : String)
    (h : s.formData.date = "" ∨ s.formData.category = "" ∨ s.formData.amount = "") :
    handleAddExpense s now today =
      { state := s, alert := some "Please fill in all required fields" } := by
  rw [handleAddExpense, if_pos h]

/-- Witness for C2: the default form has an empty amount text, so an
add on the fresh session is rejected and changes nothing. -/
theorem add_invalid_rejected_witness :
    handleAddExpense (initialState "2024-01-01") 3 "2024-01-01" =
      { state := initialState "2024-01-01"
        alert := some "Please fill in all required fields" } :=
  add_invalid_rejected (initialState "2024-01-01") 3 "2024-01-01" (Or.inr (Or.inr rfl))

/-- C4: after handleDeleteExpense with some id, looking that id up in
the collection yields absence; the surviving entries are a subsequence
of the previous collection (relative order preserved); every entry
whose id differs survives, so only the matching entry is deleted; and
when no entry carried the id, the state is exactly unchanged. -/
theorem remove_lookup_absent_and_noop (s : TrackerState) (id : String) :
    (handleDeleteExpense s id).expenses.find? (fun e => e.id == id) = none ∧
    (handleDeleteExpense s id).expenses.Sublist s.expenses ∧
    (∀ e ∈ s.expenses, e.id ≠ id → e ∈ (handleDeleteExpense s id).expenses) ∧
    ((∀ e ∈ s.expenses, e.id ≠ id) → handleDeleteExpense s id = s) := by
  refine ⟨?_, ?_, ?_, ?_⟩
  · rw [List.find?_eq_none]
    intro e he
    have := List.of_mem_filter (p := fun (e : Expense) => e.id != id) he
    simpa using this
  · exact List.filter_sublist s.expenses
  · intro e he hne
    exact List.mem_filter.mpr ⟨he, by simpa using hne⟩
  · intro h
    have : s.expenses.filter (fun e => e.id != id) = s.expenses := by
      rw [List.filter_eq_self]
      intro e he
      simpa using h e he
    rw [handleDeleteExpense, this]

/-- Witness for C4 at a concrete state: removing an id that is not
present leaves the state unchanged. -/
theorem remove_lookup_absent_and_noop_witness :
    handleDeleteExpense
      ⟨[⟨"1", "2024-01-05", "Food", JsNum.val 250, ""⟩], "All", defaultFormData "2024-01-06"⟩ "2" =
      ⟨[⟨"1", "2024-01-05", "Food", JsNum.val 250, ""⟩], "All", defaultFormData "2024-01-06"⟩ :=
  (remove_lookup_absent_and_noop
      ⟨[⟨"1", "2024-01-05", "Food", JsNum.val 250, ""⟩], "All", defaultFormData "2024-01-06"⟩ "2").2.2.2
    (by decide)

/-- C10: handleDeleteExpense keeps exactly the entries whose id
differs from the argument, in their original relative order; so even
when several expenses share the given id, none of them survives, and
every entry with a different id does. -/
theorem remove_removes_every_matching_id (s : TrackerState) (id : String) :
    (handleDeleteExpense s id).expenses = s.expenses.filter (fun e => e.id != id) ∧
    (∀ e ∈ (handleDeleteExpense s id).expenses, e.id ≠ id) ∧
    (∀ e ∈ s.expenses, e.id ≠ id → e ∈ (handleDeleteExpense s id).expenses) := by
  refine ⟨rfl, ?_, ?_⟩
  · intro e he
    have := List.of_mem_filter (p := fun (e : Expense) => e.id != id) he
    simpa using this
  · intro e he hne
    exact List.mem_filter.mpr ⟨he, by simpa using hne⟩

/-- C5: when the filter selection is All the filtered view is the whole
collection in order and its total is the sum of every amount in the
collection; and whenever the filtered view is empty its total is zero. -/
theorem total_of_all_and_empty (s : TrackerState) :
    (s.filterCategory = "All" →
      filteredExpenses s = s.expenses ∧ totalAmount s = sumAmounts s.expenses) ∧
    (filteredExpenses s = [] → totalAmount s = JsNum.val 0) := by
  constructor
  · intro h
    have hf : filteredExpenses s = s.expenses := by
      rw [filteredExpenses, if_pos h]
    exact ⟨hf, by rw [totalAmount, hf]⟩
  · intro h
    rw [totalAmount, h]
    rfl

/-- Witness for C5 at a concrete two-entry collection with the All
selection. -/
theorem total_of_all_and_empty_witness :
    filteredExpenses
        ⟨[⟨"1", "2024-01-05", "Food", JsNum.val 100, ""⟩,
          ⟨"2", "2024-01-04", "Transport", JsNum.val 50, "bus"⟩], "All", defaultFormData "2024-01-06"⟩ =
      [⟨"1", "2024-01-05", "Food", JsNum.val 100, ""⟩,
       ⟨"2", "2024-01-04", "Transport", JsNum.val 50, "bus"⟩] ∧
    totalAmount
        ⟨[⟨"1", "2024-01-05", "Food", JsNum.val 100, ""⟩,
          ⟨"2", "2024-01-04", "Transport", JsNum.val 50, "bus"⟩], "All", defaultFormData "2024-01-06"⟩ =
      sumAmounts
        [⟨"1", "2024-01-05", "Food", JsNum.val 100, ""⟩,
         ⟨"2", "2024-01-04", "Transport", JsNum.val 50, "bus"⟩] :=
  (total_of_all_and_empty
      ⟨[⟨"1", "2024-01-05", "Food", JsNum.val 100, ""⟩,
        ⟨"2", "2024-01-04", "Transport", JsNum.val 50, "bus"⟩], "All", defaultFormData "2024-01-06"⟩).1 rfl

/-- C3: handleDeleteByCategory is rejected with an alert when the
filter selection is All and the state is unchanged; with a specific
selection matching no entry it alerts and mutates nothing; otherwise,
after an affirmative confirmation, the surviving collection is exactly
the entries of other categories, a subsequence of the original (every
matching entry removed, no other entry removed, order preserved). -/
theorem deleteByCategory_cases (s : TrackerState) (confirmed : Bool) :
    (s.filterCategory = "All" →
      handleDeleteByCategory s confirmed =
        { state := s, alert := some "Please select a specific category to delete" }) ∧
    (s.filterCategory ≠ "All" →
      (s.expenses.filter (fun e => e.category == s.filterCategory)).length = 0 →
      handleDeleteByCategory s confirmed =
        { state := s, alert := some ("No expenses found in category: " ++ s.filterCategory) }) ∧
    (s.filterCategory ≠ "All" →
      (s.expenses.filter (fun e => e.category == s.filterCategory)).length ≠ 0 →
      (handleDeleteByCategory s true).state.expenses =
          s.expenses.filter (fun e => e.category != s.filterCategory) ∧
      (handleDeleteByCategory s true).state.expenses.Sublist s.expenses ∧
      (∀ e ∈ (handleDeleteByCategory s true).state.expenses, e.category ≠ s.filterCategory) ∧
      (∀ e ∈ s.expenses, e.category ≠ s.filterCategory →
        e ∈ (handleDeleteByCategory s true).state.expenses)) := by
  refine ⟨?_, ?_, ?_⟩
  · intro h
    rw [handleDeleteByCategory, if_pos h]
  · intro h h0
    rw [handleDeleteByCategory, if_neg h]
    simp only [h0, if_true]
  · intro h h0
    have hres : (handleDeleteByCategory s true).state.expenses =
        s.expenses.filter (fun e => e.category != s.filterCategory) := by
      rw [handleDeleteByCategory, if_neg h, if_neg h0, if_pos rfl]
    refine ⟨hres, ?_, ?_, ?_⟩
    · rw [hres]
      exact List.filter_sublist s.expenses
    · intro e he
      rw [hres] at he
      have := List.of_mem_filter (p := fun (e : Expense) => e.category != s.filterCategory) he
      simpa using this
    · intro e he hne
      rw [hres]
      exact List.mem_filter.mpr ⟨he, by simpa using hne⟩

/-- Witness for C3: with the filter on Food and one Food and one
Transport entry, a confirmed category delete keeps exactly the
Transport entry. -/
theorem deleteByCategory_cases_witness :
    (handleDeleteByCategory
        ⟨[⟨"1", "2024-01-05", "Food", JsNum.val 100, ""⟩,
          ⟨"2", "2024-01-04", "Transport", JsNum.val 50, "bus"⟩], "Food", defaultFormData "2024-01-06"⟩
        true).state.expenses =
      List.filter (fun e => e.category != "Food")
        [⟨"1", "2024-01-05", "Food", JsNum.val 100, ""⟩,
         ⟨"2", "2024-01-04", "Transport", JsNum.val 50, "bus"⟩] :=
  ((deleteByCategory_cases
      ⟨[⟨"1", "2024-01-05", "Food", JsNum.val 100, ""⟩,
        ⟨"2", "2024-01-04", "Transport", JsNum.val 50, "bus"⟩], "Food", defaultFormData "2024-01-06"⟩
      true).2.2 (by decide) (by decide)).1

/-- C6 counterexample: the add input with date 2024-01-01, category
Food and amount text -5 passes validation (no alert), yet the expense
it places in the collection has the negative parsed amount -5, so the
collection no longer satisfies the stated invariant. -/
theorem add_accepts_negative_amount :
    (handleAddExpense negAmountState 1 "2024-01-02").alert = none ∧
    (handleAddExpense negAmountState 1 "2024-01-02").state.expenses =
      [{ id := "1", date := "2024-01-01", category := "Food",
         amount := JsNum.val (-5), description := "" }] ∧
    ¬ collectionInvariant (handleAddExpense negAmountState 1 "2024-01-02").state.expenses := by
  refine ⟨by decide, by decide, ?_⟩
  intro h
  have := h { id := "1", date := "2024-01-01", category := "Food",
              amount := JsNum.val (-5), description := "" } (by decide)
  revert this
  decide

/-- C6 amended: every delete operation preserves the data-model
invariant unconditionally; an add that passes validation places only
entries with a non-empty date (beyond the old ones), and it preserves
the full invariant provided additionally the form category lies in the
fixed set and the amount text parses to a non-negative number — two
conditions the validation itself does not check, as the counterexample
shows. -/
theorem invariant_preserved (s : TrackerState) (now : Nat) (today : String)
    (hinv : collectionInvariant s.expenses) :
    ((handleAddExpense s now today).alert = none →
      ∀ e ∈ (handleAddExpense s now today).state.expenses, e ∈ s.expenses ∨ e.date ≠ "") ∧
    (s.formData.date ≠ "" → s.formData.category ∈ categories →
      JsNum.nonneg (parseFloat s.formData.amount) →
      collectionInvariant (handleAddExpense s now today).state.expenses) ∧
    (∀ id, collectionInvariant (handleDeleteExpense s id).expenses) ∧
    (∀ c, collectionInvariant (handleDeleteAll s c).state.expenses) ∧
    (∀ c, collectionInvariant (handleDeleteByCategory s c).state.expenses) := by
  refine ⟨?_, ?_, ?_, ?_, ?_⟩
  · by_cases h : s.formData.date = "" ∨ s.formData.category = "" ∨ s.formData.amount = ""
    · intro halert
      rw [handleAddExpense, if_pos h] at halert
      simp at halert
    · intro _ e he
      rw [handleAddExpense, if_neg h] at he
      rcases List.mem_cons.mp he with rfl | hmem
      · push_neg at h
        exact Or.inr h.1
      · exact Or.inl hmem
  · intro hd hc ha
    by_cases h : s.formData.date = "" ∨ s.formData.category = "" ∨ s.formData.amount = ""
    · rw [handleAddExpense, if_pos h]
      exact hinv
    · rw [handleAddExpense, if_neg h]
      intro e he
      rcases List.mem_cons.mp he with rfl | hmem
      · exact ⟨hd, hc, ha⟩
      · exact hinv e hmem
  · intro id e he
    exact hinv e (List.mem_of_mem_filter he)
  · intro c e he
    rw [handleDeleteAll] at he
    by_cases hc2 : c
    · rw [if_pos hc2] at he
      exact absurd he (List.not_mem_nil e)
    · rw [if_neg hc2] at he
      exact hinv e he
  · intro c e he
    rw [handleDeleteByCategory] at he
    by_cases h1 : s.filterCategory = "All"
    · rw [if_pos h1] at he
      exact hinv e he
    · rw [if_neg h1] at he
      by_cases h2 : (s.expenses.filter (fun e => e.category == s.filterCategory)).length = 0
      · rw [if_pos h2] at he
        exact hinv e he
      · rw [if_neg h2] at he
        by_cases h3 : c
        · rw [if_pos h3] at he
          exact hinv e (List.mem_of_mem_filter he)
        · rw [if_neg h3] at he
          exact hinv e he

/-- Witness for the amended C6 at a concrete well-formed add input. -/
theorem invariant_preserved_witness :
    collectionInvariant
      (handleAddExpense
        ⟨[], "All", ⟨"2024-01-05", "Food", "250", ""⟩⟩ 7 "2024-02-01").state.expenses :=
  (invariant_preserved ⟨[], "All", ⟨"2024-01-05", "Food", "250", ""⟩⟩ 7 "2024-02-01"
    (by decide)).2.1 (by decide) (by decide) (by decide)

/-- C9: whenever the filtered view is empty, downloadPDF raises the
alert and produces no document, for any current date texts and any
table extent the rendering collaborator would report; being a pure
function of the state, it changes neither the collection nor the
filter. -/
theorem export_rejected_when_empty (s : TrackerState)
    (reportDate todayISO : String) (tableFinalY : Nat)
    (h : filteredExpenses s = []) :
    downloadPDF s reportDate todayISO tableFinalY =
      PdfResult.rejected "No expenses to download" ∧
    ∀ r, downloadPDF s reportDate todayISO tableFinalY ≠ PdfResult.produced r := by
  have hlen : (filteredExpenses s).length = 0 := by rw [h]; rfl
  have hres : downloadPDF s reportDate todayISO tableFinalY =
      PdfResult.rejected "No expenses to download" := by
    rw [downloadPDF, if_pos hlen]
  exact ⟨hres, fun r hr => by rw [hres] at hr; exact PdfResult.noConfusion hr⟩

/-- Witness for C9: the fresh session has an empty filtered view, so
the export is rejected. -/
theorem export_rejected_when_empty_witness :
    downloadPDF (initialState "2024-01-01") "1/1/2024" "2024-01-01" 50 =
      PdfResult.rejected "No expenses to download" :=
  (export_rejected_when_empty (initialState "2024-01-01") "1/1/2024" "2024-01-01" 50 rfl).1

/-- Each event either keeps the id sequence a subsequence of what it
was (so no existing id is ever rewritten, only dropped), or, for a
successful add, prepends the id printed from the clock reading of that
add. -/
theorem step_ids (s : TrackerState) (op : Op) :
    (ids (step s op).expenses).Sublist (ids s.expenses) ∨
    ∃ n t, op = Op.add n t ∧
      ids (step s op).expenses = toString n :: ids s.expenses := by
  cases op with
  | input f v => exact Or.inl (List.Sublist.refl _)
  | setFilter c => exact Or.inl (List.Sublist.refl _)
  | add n t =>
    by_cases h : s.formData.date = "" ∨ s.formData.category = "" ∨ s.formData.amount = ""
    · left
      rw [step, handleAddExpense, if_pos h]
    · right
      refine ⟨n, t, rfl, ?_⟩
      rw [step, handleAddExpense, if_neg h]
      rfl
  | remove id =>
    left
    exact (List.filter_sublist s.expenses).map _
  | removeAll c =>
    cases c with
    | true =>
      left
      rw [step, handleDeleteAll, if_pos rfl]
      exact List.nil_sublist _
    | false => exact Or.inl (List.Sublist.refl _)
  | removeByCategory c =>
    left
    rw [step, handleDeleteByCategory]
    by_cases h1 : s.filterCategory = "All"
    · rw [if_pos h1]
    · rw [if_neg h1]
      by_cases h2 : (s.expenses.filter (fun e => e.category == s.filterCategory)).length = 0
      · rw [if_pos h2]
      · rw [if_neg h2]
        cases c with
        | true =>
          rw [if_pos rfl]
          exact (List.filter_sublist s.expenses).map _
        | false => rfl

/-- The add events of the tail of a session are among those of the
whole session. -/
theorem addTimes_tail_sublist (op : Op) (ops : List Op) :
    (addTimes ops).Sublist (addTimes (op :: ops)) := by
  cases op with
  | add n t => exact List.sublist_cons_self _ _
  | input f v => exact List.Sublist.refl _
  | setFilter c => exact List.Sublist.refl _
  | remove id => exact List.Sublist.refl _
  | removeAll c => exact List.Sublist.refl _
  | removeByCategory c => exact List.Sublist.refl _

/-- Freshness induction: starting from a collection with distinct ids,
none of which collides with the id any upcoming add would generate, and
with the upcoming adds generating pairwise distinct ids, every id in
the final collection is distinct. -/
theorem run_ids_nodup (ops : List Op) (s : TrackerState)
    (hs : (ids s.expenses).Nodup)
    (hfresh : ∀ n ∈ addTimes ops, toString n ∉ ids s.expenses)
    (hops : ((addTimes ops).map (fun n : Nat => toString n)).Nodup) :
    (ids (run s ops).expenses).Nodup := by
  induction ops generalizing s with
  | nil => exact hs
  | cons op ops ih =>
    have hsub := addTimes_tail_sublist op ops
    rw [run]
    rcases step_ids s op with h | ⟨n, t, rfl, h⟩
    · apply ih
      · exact hs.sublist h
      · intro m hm hmem
        exact hfresh m (hsub.subset hm) (h.subset hmem)
      · exact hops.sublist (hsub.map _)
    · have haddt : addTimes (Op.add n t :: ops) = n :: addTimes ops := rfl
      rw [haddt] at hfresh hops
      rw [List.map_cons] at hops
      apply ih
      · rw [h]
        exact List.nodup_cons.mpr ⟨hfresh n (List.mem_cons_self _ _), hs⟩
      · intro m hm hmem
        rw [h] at hmem
        rcases List.mem_cons.mp hmem with heq | hmem2
        · exact (List.nodup_cons.mp hops).1 (heq ▸ List.mem_map_of_mem _ hm)
        · exact hfresh m (List.mem_cons_of_mem _ hm) hmem2
      · exact (List.nodup_cons.mp hops).2

/-- C7 counterexample: in the session of collidingOps the user performs
two valid adds while Date.now() reads 5 both times; both expenses
receive the id 5, so the collection holds two distinct entries with
equal id. -/
theorem duplicate_ids_reachable :
    ids (run (initialState "2024-01-01") collidingOps).expenses = ["5", "5"] ∧
    ¬ (ids (run (initialState "2024-01-01") collidingOps).expenses).Nodup := by
  constructor
  · decide
  · decide

/-- C7 amended: provided the clock readings of the add events of a
session print to pairwise distinct id strings (in particular whenever
no two adds fall in the same millisecond), every id in the collection
is distinct at every point of the session; deletes only drop ids and no
operation rewrites an existing id. -/
theorem ids_unique_of_distinct_clock (today : String) (ops : List Op)
    (h : ((addTimes ops).map (fun n : Nat => toString n)).Nodup) :
    (ids (run (initialState today) ops).expenses).Nodup := by
  apply run_ids_nodup ops (initialState today) List.nodup_nil _ h
  intro n _ hmem
  exact absurd hmem (List.not_mem_nil _)

/-- Witness for the amended C7: the colliding session repaired so that
the second add happens one millisecond later has distinct ids. -/
theorem ids_unique_of_distinct_clock_witness :
    (ids (run (initialState "2024-01-01")
        [Op.input FormField.amount "10", Op.add 5 "2024-01-01",
         Op.input FormField.amount "20", Op.add 6 "2024-01-01"]).expenses).Nodup :=
  ids_unique_of_distinct_clock "2024-01-01"
    [Op.input FormField.amount "10", Op.add 5 "2024-01-01",
     Op.input FormField.amount "20", Op.add 6 "2024-01-01"] (by decide)

/-- Round trip of a single record through the serialised blob: the
reloaded record value equals the in-memory record value, provided the
amount is an actual number and not NaN. -/
theorem parse_encodeExpense (e : Expense) (h : e.amount ≠ JsNum.nan) :
    (encodeExpense e).map (fun f => (f.1, parseScalar f.2)) = jsValueOfExpense e := by
  rcases e with ⟨i, d, c, a, ds⟩
  cases a with
  | nan => exact absurd rfl h
  | val q => rfl

/-- C8 counterexample: an expense whose amount is NaN serialises with a
null amount (JSON.stringify maps NaN to null); JSON.parse succeeds on
the blob and the reload installs the one-entry collection whose amount
field holds null, which carries nan in the original in-memory value, so
the round trip does not yield an identical sequence of entries. -/
theorem roundtrip_fails_on_nan :
    parseStored (encodeExpenses [nanExpense]) =
      [[("id", JsScalar.str "9"), ("date", JsScalar.str "2024-01-01"),
        ("category", JsScalar.str "Other"), ("amount", JsScalar.null),
        ("description", JsScalar.str "x")]] ∧
    parseStored (encodeExpenses [nanExpense]) ≠ jsValueOfExpenses [nanExpense] := by
  constructor
  · decide
  · decide

/-- C8 amended: the stored blob always reloads successfully (JSON.parse
fails only on malformed text, which the save effect never writes), and
for every collection in which each amount is an actual number the
reloaded value is the identical ordered sequence of entries, field for
field. -/
theorem persist_reload_roundtrip (l : List Expense)
    (h : ∀ e ∈ l, e.amount ≠ JsNum.nan) :
    parseStored (encodeExpenses l) = jsValueOfExpenses l := by
  induction l with
  | nil => rfl
  | cons e es ih =>
    have he : (encodeExpense e).map (fun f => (f.1, parseScalar f.2)) = jsValueOfExpense e :=
      parse_encodeExpense e (h e (List.mem_cons_self _ _))
    have hes : parseStored (encodeExpenses es) = jsValueOfExpenses es :=
      ih fun x hx => h x (List.mem_cons_of_mem _ hx)
    show ((e :: es).map encodeExpense).map (fun r => r.map (fun f => (f.1, parseScalar f.2))) =
      (e :: es).map jsValueOfExpense
    rw [List.map_cons, List.map_cons, List.map_cons, he]
    exact congrArg _ hes

/-- Witness for the amended C8 at a concrete two-entry collection. -/
theorem persist_reload_roundtrip_witness :
    parseStored (encodeExpenses
        [⟨"1", "2024-01-05", "Food", JsNum.val 100, ""⟩,
         ⟨"2", "2024-01-04", "Transport", JsNum.val 50, "bus"⟩]) =
      jsValueOfExpenses
        [⟨"1", "2024-01-05", "Food", JsNum.val 100, ""⟩,
         ⟨"2", "2024-01-04", "Transport", JsNum.val 50, "bus"⟩] :=
  persist_reload_roundtrip
    [⟨"1", "2024-01-05", "Food", JsNum.val 100, ""⟩,
     ⟨"2", "2024-01-04", "Transport", JsNum.val 50, "bus"⟩] (by decide)

end ExpenseTracker
